import Mathlib

/-!
Verification of the single-file AI agent (`main.py`): a shallow embedding of
the tool executor (`_execute_tool`, `_read_file`, `_list_files`, `_edit_file`)
and of the agentic chat loop (`AIAgent.chat`), with theorems checking the
specification's claims against it.

The filesystem is modelled as a finite map from path strings to file contents
plus a list of directory paths.  The remote model service is modelled as a
scripted stub: a list of outcomes, one per `responses.create` call, each either
a response or a raised exception (carrying its message string).  Machine-level
exception texts produced by CPython (e.g. `str(IsADirectoryError)`) are
reproduced where they are simple; branches that no theorem exercises carry an
approximation of the text, marked in comments.
-/

namespace Agent

/-- Filesystem state: `files` maps a path to its content, `dirs` lists the
existing directory paths.  Mirrors what `open`, `os.path.exists`,
`os.path.isdir`, `os.listdir` and `os.makedirs` observe and mutate. -/
structure FS where
  files : List (String × String)
  dirs : List String
deriving DecidableEq

/-- A path names an existing regular file. -/
def FS.isFile (fs : FS) (p : String) : Bool :=
  (fs.files.lookup p).isSome

/-- `os.path.isdir`. -/
def FS.isDir (fs : FS) (p : String) : Bool :=
  fs.dirs.contains p

/-- `os.path.exists`: a file or a directory exists at the path. -/
def FS.pathExists (fs : FS) (p : String) : Bool :=
  fs.isFile p || fs.isDir p

/-- `str.endswith`, computed on the character lists (the core iterator-based
version does not reduce definitionally). -/
def strEndsWith (s suffix : String) : Bool :=
  suffix.data.isSuffixOf s.data

/-- `str.startswith`, computed on the character lists. -/
def strIsPrefixOf (pre s : String) : Bool :=
  pre.data.isPrefixOf s.data

/-- Drop the first `n` characters of a string. -/
def strDrop (s : String) (n : Nat) : String :=
  ⟨s.data.drop n⟩

/-- Whether a string contains a character. -/
def strContainsChar (s : String) (c : Char) : Bool :=
  s.data.contains c

/-- `str.split` on a one-character separator: `[] ↦ [""]`, separators split
off possibly empty groups. -/
def splitOnChar (sep : Char) : List Char → List (List Char)
  | [] => [[]]
  | c :: rest =>
    let r := splitOnChar sep rest
    if c = sep then [] :: r
    else
      match r with
      | [] => [[c]]
      | g :: gs => (c :: g) :: gs

/-- `p.split("/")` as a list of strings. -/
def strSplitOnSlash (p : String) : List String :=
  (splitOnChar '/' p.data).map (fun l => ⟨l⟩)

/-- `sep.join(groups)` on character lists. -/
def intercalateChars (sep : List Char) : List (List Char) → List Char
  | [] => []
  | [x] => x
  | x :: y :: rest => x ++ sep ++ intercalateChars sep (y :: rest)

/-- `sep.join(parts)` on strings. -/
def strIntercalate (sep : String) (parts : List String) : String :=
  ⟨intercalateChars sep.data (parts.map String.data)⟩

/-- `os.path.join(path, item)` for the shapes used here: insert a single
separator unless `path` already ends in one. -/
def pathJoin (p item : String) : String :=
  if strEndsWith p "/" then p ++ item else p ++ "/" ++ item

/-- `os.path.dirname` for relative paths without duplicated separators (the
only shapes the program produces): everything before the last `/`, or the
empty string when there is no `/`. -/
def dirname (p : String) : String :=
  let parts := strSplitOnSlash p
  if parts.length ≤ 1 then "" else strIntercalate "/" parts.dropLast

/-- The chain `os.makedirs(d)` works through, shallowest first: every prefix
of `d` at a `/` boundary, `d` itself included. -/
def ancestors (d : String) : List String :=
  (List.range (strSplitOnSlash d).length).map
    (fun i => strIntercalate "/" ((strSplitOnSlash d).take (i + 1)))

/-- Walk the ancestor chain the way `os.makedirs(d, exist_ok=True)` does,
shallowest component first: an existing directory is passed over (`exist_ok`
suppresses the `mkdir` error only for directories), a missing one is created.
A component existing as a regular file fails: `mkdir` on the chain's final
target raises `FileExistsError` (errno 17), `mkdir` of the child of a file
component raises `NotADirectoryError` (errno 20, named after the child being
created).  On a well-formed filesystem (every ancestor of an existing path is
a directory) no directory gets created before the failing component, so a
failure leaves the filesystem unchanged. -/
def mkdirsWalk : FS → List String → Except String FS
  | fs, [] => Except.ok fs
  | fs, [a] =>
    if fs.isFile a then Except.error ("[Errno 17] File exists: '" ++ a ++ "'")
    else if fs.isDir a then Except.ok fs
    else Except.ok { fs with dirs := fs.dirs ++ [a] }
  | fs, a :: b :: rest =>
    if fs.isFile a then Except.error ("[Errno 20] Not a directory: '" ++ b ++ "'")
    else if fs.isDir a then mkdirsWalk fs (b :: rest)
    else mkdirsWalk { fs with dirs := fs.dirs ++ [a] } (b :: rest)

/-- `os.makedirs(d, exist_ok=True)`: create the missing ancestors of `d`, or
fail with the exception message when a component exists as a regular file. -/
def mkdirsE (fs : FS) (d : String) : Except String FS :=
  mkdirsWalk fs (ancestors d)

/-- Update (or insert) the content stored at a path. -/
def setFile (files : List (String × String)) (p c : String) : List (String × String) :=
  match files with
  | [] => [(p, c)]
  | (q, d) :: rest => if q = p then (p, c) :: rest else (q, d) :: setFile rest p c

/-- `open(p, "w"); f.write(c)` on a non-directory path. -/
def FS.writeFile (fs : FS) (p c : String) : FS :=
  { fs with files := setFile fs.files p c }

/-- The name under which `q` is an immediate child of directory `p`, if any. -/
def childName (p q : String) : Option String :=
  let pref := if strEndsWith p "/" then p else p ++ "/"
  if strIsPrefixOf pref q then
    let rest := strDrop q pref.length
    if rest != "" && !(strContainsChar rest '/') then some rest else none
  else none

/-- Strict lexicographic order on character lists (Python's `<` on `str`,
comparing code points). -/
def lexLt : List Char → List Char → Bool
  | [], [] => false
  | [], _ :: _ => true
  | _ :: _, [] => false
  | a :: as, b :: bs => if a < b then true else if b < a then false else lexLt as bs

/-- Python string comparison, by code points. -/
def strLt (a b : String) : Bool :=
  lexLt a.data b.data

/-- Insert a string into an already sorted list. -/
def insertSorted (x : String) : List String → List String
  | [] => [x]
  | y :: ys => if strLt x y then x :: y :: ys else y :: insertSorted x ys

/-- `sorted` on a list of strings (insertion sort with Python's order). -/
def sortStrings : List String → List String
  | [] => []
  | x :: xs => insertSorted x (sortStrings xs)

/-- `sorted(os.listdir(p))`: the names of the immediate children of `p`,
sorted lexicographically. -/
def FS.listdir (fs : FS) (p : String) : List String :=
  sortStrings (((fs.files.map Prod.fst) ++ fs.dirs).filterMap (childName p)).dedup

/-- `AIAgent._read_file`.  A successful read returns the header line
`File contents of <path>:` followed by the content; a missing file returns
`File not found: <path>`.  Opening a directory raises `IsADirectoryError`,
caught by the method's handler and converted to an error string. -/
def read_file (fs : FS) (path : String) : String :=
  match fs.files.lookup path with
  | some content => "File contents of " ++ path ++ ":\n" ++ content
  | none =>
    if fs.isDir path then
      "Error reading file: [Errno 21] Is a directory: '" ++ path ++ "'"
    else
      "File not found: " ++ path

/-- `AIAgent._list_files`: check existence, list immediate children sorted by
name, tag directories `[DIR]` (two spaces, trailing `/`) and everything else
`[FILE]`, join with newlines under a `Contents of <path>:` header. -/
def list_files (fs : FS) (path : String) : String :=
  if !(fs.pathExists path) then
    "Path not found: " ++ path
  else
    let items := (fs.listdir path).map (fun item =>
      if fs.isDir (pathJoin path item) then "[DIR]  " ++ item ++ "/"
      else "[FILE] " ++ item)
    if items.isEmpty then "Empty directory: " ++ path
    else "Contents of " ++ path ++ ":\n" ++ strIntercalate "\n" items

/-- Python truthiness of the `old_text` argument, which is `None` or a
string: `None` and `""` are falsy. -/
def pyTruthy : Option String → Bool
  | none => false
  | some s => s != ""

/-- Substring test on character lists (Python's `pat in s`). -/
def containsSub (pat : List Char) : List Char → Bool
  | [] => pat.isEmpty
  | c :: rest => pat.isPrefixOf (c :: rest) || containsSub pat rest

/-- Python's `old in content` on strings. -/
def strContainsSub (content old : String) : Bool :=
  containsSub old.data content.data

/-- `str.replace`: replace every non-overlapping occurrence of `pat`, left to
right.  The program only calls this with a non-empty `pat` (guarded by
truthiness of `old_text`), so the empty-pattern behaviour is irrelevant. -/
def replaceAll (pat rep : List Char) : List Char → List Char
  | [] => []
  | c :: rest =>
    if !pat.isEmpty && pat.isPrefixOf (c :: rest) then
      rep ++ replaceAll pat rep (rest.drop (pat.length - 1))
    else
      c :: replaceAll pat rep rest
termination_by s => s.length
decreasing_by
  · simp only [List.length_drop, List.length_cons]
    omega
  · simp only [List.length_cons]
    omega

/-- `content.replace(old, new)` on strings. -/
def strReplace (content old new : String) : String :=
  ⟨replaceAll old.data new.data content.data⟩

/-- `AIAgent._edit_file`.  Replace mode when the path exists and `old_text` is
truthy: read the content, return `Text not found in file: <old_text>` without
writing when `old_text` is not a substring, otherwise write the replaced
content.  Create mode otherwise, in the order of the Python code: run
`os.makedirs(dirname, exist_ok=True)` when the path has a directory part (a
raised `FileExistsError`/`NotADirectoryError` is caught by the method's
handler and nothing is written), then `open(path, "w")`, which raises
`IsADirectoryError` on an existing directory (caught too, the directories
already made by `makedirs` remaining), otherwise write `new_text`. -/
def edit_file (fs : FS) (path : String) (old_text : Option String) (new_text : String) :
    String × FS :=
  if fs.pathExists path && pyTruthy old_text then
    let o := old_text.getD ""
    match fs.files.lookup path with
    | none =>
      ("Error editing file: [Errno 21] Is a directory: '" ++ path ++ "'", fs)
    | some content =>
      if !(strContainsSub content o) then
        ("Text not found in file: " ++ o, fs)
      else
        ("Successfully edited " ++ path, fs.writeFile path (strReplace content o new_text))
  else
    match (if dirname path != "" then mkdirsE fs (dirname path) else Except.ok fs) with
    | Except.error msg => ("Error editing file: " ++ msg, fs)
    | Except.ok fs1 =>
      if fs1.isDir path then
        ("Error editing file: [Errno 21] Is a directory: '" ++ path ++ "'", fs1)
      else
        ("Successfully created " ++ path, fs1.writeFile path new_text)

/-- `AIAgent._execute_tool`.  A tool argument value is JSON `null` (`none`) or
a string.  A missing required key raises `KeyError`, caught by the method's
own handler and turned into `Error executing <tool>: '<key>'`; the keys are
read in the evaluation order of the Python call.  Unrecognized tool names
return `Unknown tool: <name>`. -/
def execute_tool (tool_name : String) (tool_input : List (String × Option String))
    (fs : FS) : String × FS :=
  if tool_name == "read_file" then
    match tool_input.lookup "path" with
    | some (some p) => (read_file fs p, fs)
    | some none =>
      -- `open(None)` raises `TypeError`, caught inside `_read_file`
      ("Error reading file: expected str, bytes or os.PathLike object, not NoneType", fs)
    | none => ("Error executing read_file: 'path'", fs)
  else if tool_name == "list_files" then
    match tool_input.lookup "path" with
    | some v =>
      -- `tool_input["path"] or "."`: a null or empty path defaults to "."
      (list_files fs (match v with
        | some s => if s == "" then "." else s
        | none => "."), fs)
    | none => ("Error executing list_files: 'path'", fs)
  else if tool_name == "edit_file" then
    match tool_input.lookup "path" with
    | none => ("Error executing edit_file: 'path'", fs)
    | some pv =>
      -- `tool_input.get("old_text", "")`: a missing key defaults to ""
      let old := match tool_input.lookup "old_text" with
        | none => some ""
        | some v => v
      match tool_input.lookup "new_text" with
      | none => ("Error executing edit_file: 'new_text'", fs)
      | some nv =>
        match pv, nv with
        | some p, some nt => edit_file fs p old nt
        | _, _ =>
          -- a null path or new_text raises `TypeError` inside `_edit_file`
          -- (exception text abbreviated)
          ("Error editing file: path should be a str, not NoneType", fs)
  else
    ("Unknown tool: " ++ tool_name, fs)

/-- The `arguments` string of a function call as `json.loads` sees it: either
a JSON object text (already rendered as the dictionary it parses to) or a text
that `json.loads` rejects, carrying the `JSONDecodeError` message. -/
inductive JsonArg where
  | obj (d : List (String × Option String))
  | malformed (msg : String)
deriving DecidableEq

/-- A `function_call` output item: call id, tool name, and the `arguments`
field.  `none` models a falsy `arguments` value (`None` or `""`), which
`function_call.arguments or "{}"` turns into the empty JSON object. -/
structure FunctionCall where
  call_id : String
  name : String
  arguments : Option JsonArg
deriving DecidableEq

/-- An item of `response.output`: a text message, a function call, or any
other item kind (reasoning, etc.), which the loop appends but ignores. -/
inductive OutputItem where
  | message (text : String)
  | functionCall (fc : FunctionCall)
  | other
deriving DecidableEq

/-- A model-service response: its ordered list of output items. -/
structure Response where
  output : List OutputItem
deriving DecidableEq

/-- `response.output_text`: the concatenated text of the message items
(the empty string when there are none). -/
def Response.output_text (r : Response) : String :=
  String.join (r.output.filterMap (fun i => match i with
    | OutputItem.message t => some t
    | _ => none))

/-- The function-call items of the output (`item.type == "function_call"`). -/
def OutputItem.asFunctionCall : OutputItem → Option FunctionCall
  | OutputItem.functionCall fc => some fc
  | _ => none

/-- One entry of `self.input`: a user message, an output item appended from a
response (`item.to_dict()`), or a `function_call_output` record. -/
inductive Turn where
  | user (text : String)
  | outputItem (item : OutputItem)
  | functionCallOutput (call_id output : String)
deriving DecidableEq

/-- `json.loads(function_call.arguments or "{}")`: a falsy `arguments` parses
as the empty object; malformed text raises `JSONDecodeError`. -/
def loads : Option JsonArg → Except String (List (String × Option String))
  | none => Except.ok []
  | some (JsonArg.obj d) => Except.ok d
  | some (JsonArg.malformed msg) => Except.error msg

/-- The `for function_call in function_calls` body: execute the calls in
order, building the `function_call_output` turns and threading the
filesystem.  `ok (turns, fs, k)` after `k` tool executions; a
`JSONDecodeError` gives `error (msg, fs, k)` with the filesystem effects of
the `k` calls already executed kept, their result turns discarded (the
exception escapes before `function_results` reaches `self.input`). -/
def execBatch (fs : Agent.FS) : List FunctionCall →
    Except (String × Agent.FS × Nat) (List Turn × Agent.FS × Nat)
  | [] => Except.ok ([], fs, 0)
  | fc :: rest =>
    match loads fc.arguments with
    | Except.error msg => Except.error (msg, fs, 0)
    | Except.ok args =>
      let r := Agent.execute_tool fc.name args fs
      match execBatch r.2 rest with
      | Except.ok (turns, fs2, k) =>
        Except.ok (Turn.functionCallOutput fc.call_id r.1 :: turns, fs2, k + 1)
      | Except.error (msg, fs2, k) => Except.error (msg, fs2, k + 1)

/-- What one run of the `while True` loop produced: the returned string, the
final `self.input`, the final filesystem, the number of `responses.create`
calls, the number of tool executions, and the `self.input` snapshot sent on
each service call. -/
structure RunResult where
  result : String
  input : List Turn
  fs : Agent.FS
  serviceCalls : Nat
  toolExecs : Nat
  requests : List (List Turn)
deriving DecidableEq

/-- The `while True` loop of `AIAgent.chat`, driven by a scripted service
stub: one `Except` per `responses.create` call, `error e` modelling the call
raising an exception with message `e` (caught by the loop's handler, which
returns `Error: <e>`).  An exhausted script models a stub that raises on the
next call.  A response with no function calls returns `output_text`; otherwise
the calls are executed and their outputs appended (`function_results` is
non-empty exactly when there are function calls, so the `if function_results`
guard is the unconditional append). -/
def runLoop : Agent.FS → List Turn → List (Except String Response) → RunResult
  | fs, input, [] => ⟨"Error: stub exhausted", input, fs, 1, 0, [input]⟩
  | fs, input, Except.error e :: _ => ⟨"Error: " ++ e, input, fs, 1, 0, [input]⟩
  | fs, input, Except.ok resp :: rest =>
    let input2 := input ++ resp.output.map Turn.outputItem
    let fcs := resp.output.filterMap OutputItem.asFunctionCall
    if fcs.isEmpty then
      ⟨resp.output_text, input2, fs, 1, 0, [input]⟩
    else
      match execBatch fs fcs with
      | Except.error (msg, fs2, k) => ⟨"Error: " ++ msg, input2, fs2, 1, k, [input]⟩
      | Except.ok (results, fs2, k) =>
        let r := runLoop fs2 (input2 ++ results) rest
        ⟨r.result, r.input, r.fs, r.serviceCalls + 1, r.toolExecs + k, input :: r.requests⟩

/-- `AIAgent.chat`: append the user turn to the conversation carried over from
earlier calls, then run the loop. -/
def chat (input0 : List Turn) (user_input : String)
    (script : List (Except String Response)) (fs : Agent.FS) : RunResult :=
  runLoop fs (input0 ++ [Turn.user user_input]) script

/-- Looking up the path just written finds the new content. -/
theorem lookup_setFile (files : List (String × String)) (p c : String) :
    (setFile files p c).lookup p = some c := by
  induction files with
  | nil => simp [setFile]
  | cons hd tl ih =>
    obtain ⟨q, d⟩ := hd
    by_cases hq : q = p
    · subst hq
      simp [setFile]
    · have hpq : (p == q) = false := by
        simp [Ne.symm hq]
      simp [setFile, hq, List.lookup, hpq, ih]

/-- A path with a file content entry satisfies `os.path.exists`. -/
theorem pathExists_of_lookup {fs : FS} {p c : String}
    (h : fs.files.lookup p = some c) : fs.pathExists p = true := by
  simp [FS.pathExists, FS.isFile, h]

/-- C1: for a scripted model-service stub whose first response contains zero
function-call items, `chat(user_input)` performs exactly one service call and
zero tool executions, and returns that response's `output_text` (the empty
string when the response carries no message text); the conversation gains the
user turn and the response's output items, and the filesystem is untouched. -/
theorem chat_no_tool_calls (input0 : List Turn) (u : String) (r : Response)
    (rest : List (Except String Response)) (fs : FS)
    (h : r.output.filterMap OutputItem.asFunctionCall = []) :
    chat input0 u (Except.ok r :: rest) fs =
      ⟨r.output_text, (input0 ++ [Turn.user u]) ++ r.output.map Turn.outputItem,
        fs, 1, 0, [input0 ++ [Turn.user u]]⟩ := by
  simp [chat, runLoop, h]

theorem chat_no_tool_calls_witness :
    chat [] "hello" [Except.ok ⟨[OutputItem.message "Hi there"]⟩] ⟨[], []⟩ =
      ⟨"Hi there", [Turn.user "hello", Turn.outputItem (OutputItem.message "Hi there")],
        ⟨[], []⟩, 1, 0, [[Turn.user "hello"]]⟩ :=
  chat_no_tool_calls [] "hello" ⟨[OutputItem.message "Hi there"]⟩ [] ⟨[], []⟩ rfl

/-- C4: when the model-service call raises, the loop catches the exception,
does not retry (the rest of the script is never consumed), returns the single
string `Error: <message>` as the `chat` result, and the conversation state is
exactly what had been appended before the failure; the filesystem is
untouched.  Every iteration of the loop is a `runLoop` call, so this covers a
failure at any point of a `chat` run. -/
theorem runLoop_service_error (fs : FS) (input : List Turn) (e : String)
    (rest : List (Except String Response)) :
    runLoop fs input (Except.error e :: rest) =
      ⟨"Error: " ++ e, input, fs, 1, 0, [input]⟩ := rfl

/-- C3, counterexample: a function call whose `arguments` string is malformed
JSON does not get an empty argument set; `json.loads` raises, the loop-level
handler catches it, `chat` returns `Error: <JSONDecodeError message>`, and the
tool executor runs zero times. -/
theorem chat_malformed_args_cex :
    (chat [] "hi"
        [Except.ok ⟨[OutputItem.functionCall ⟨"call_1", "read_file",
          some (JsonArg.malformed "Expecting value: line 1 column 1 (char 0)")⟩]⟩]
        ⟨[], []⟩).toolExecs = 0 ∧
    (chat [] "hi"
        [Except.ok ⟨[OutputItem.functionCall ⟨"call_1", "read_file",
          some (JsonArg.malformed "Expecting value: line 1 column 1 (char 0)")⟩]⟩]
        ⟨[], []⟩).result = "Error: Expecting value: line 1 column 1 (char 0)" :=
  ⟨rfl, rfl⟩

/-- C3, amended: an absent (`None` or empty) `arguments` field is substituted
by the empty argument set and the tool executor is still invoked for that
call, producing its `function_call_output` turn and counting one execution;
malformed JSON arguments instead abort the batch (see the counterexample). -/
theorem execBatch_none_args (fs : FS) (fc : FunctionCall)
    (h : fc.arguments = none) :
    execBatch fs [fc] =
      Except.ok ([Turn.functionCallOutput fc.call_id (execute_tool fc.name [] fs).1],
        (execute_tool fc.name [] fs).2, 1) := by
  simp [execBatch, loads, h]

theorem execBatch_none_args_witness :
    execBatch ⟨[], []⟩ [⟨"c1", "foo", none⟩] =
      Except.ok ([Turn.functionCallOutput "c1" "Unknown tool: foo"], ⟨[], []⟩, 1) :=
  execBatch_none_args ⟨[], []⟩ ⟨"c1", "foo", none⟩ rfl

/-- C5, counterexample: creating `f.txt` with content `hello` and then reading
it does not return exactly `hello`: `_read_file` prefixes the header line
`File contents of f.txt:`. -/
theorem edit_create_read_cex :
    read_file (edit_file ⟨[], []⟩ "f.txt" none "hello").2 "f.txt" ≠ "hello" := by
  decide

/-- C5, amended: on a path `p` whose parent-directory creation succeeds
(`os.makedirs` on `dirname p` does not raise — in particular no ancestor of
`p` exists as a regular file) and which is not an existing directory when
opened, creating the file with content `C` via `edit_file` (create mode)
returns `Successfully created <p>`, and `read_file p` then returns the header
line `File contents of <p>:` followed by exactly `C` — never the bare `C`. -/
theorem edit_create_read (fs fs1 : FS) (p C : String)
    (hmk : (if dirname p != "" then mkdirsE fs (dirname p) else Except.ok fs) =
      Except.ok fs1)
    (hdir : fs1.isDir p = false) :
    (edit_file fs p none C).1 = "Successfully created " ++ p ∧
    read_file (edit_file fs p none C).2 p = "File contents of " ++ p ++ ":\n" ++ C := by
  have hcreate : edit_file fs p none C =
      ("Successfully created " ++ p, fs1.writeFile p C) := by
    have hmk2 : (if dirname p = "" then Except.ok fs else mkdirsE fs (dirname p)) =
        Except.ok fs1 := by
      rcases eq_or_ne (dirname p) "" with h | h
      · simpa [h] using hmk
      · simpa [h] using hmk
    simp [edit_file, pyTruthy, hmk2, hdir]
  rw [hcreate]
  exact ⟨rfl, by simp [read_file, FS.writeFile, lookup_setFile]⟩

theorem edit_create_read_witness :
    (edit_file ⟨[], []⟩ "a/b.txt" none "hello").1 = "Successfully created a/b.txt" ∧
    read_file (edit_file ⟨[], []⟩ "a/b.txt" none "hello").2 "a/b.txt" =
      "File contents of a/b.txt:\nhello" :=
  edit_create_read ⟨[], []⟩ ⟨[], ["a"]⟩ "a/b.txt" "hello" rfl rfl

/-- C6: replace mode on an existing file whose content does not contain the
non-empty `old_text` returns `Text not found in file: <old_text>` and returns
the filesystem unchanged (the write is never reached). -/
theorem edit_replace_not_found (fs : FS) (p content old new : String)
    (hf : fs.files.lookup p = some content) (ho : old ≠ "")
    (hc : strContainsSub content old = false) :
    edit_file fs p (some old) new = ("Text not found in file: " ++ old, fs) := by
  have hex := pathExists_of_lookup hf
  simp [edit_file, pyTruthy, hex, ho, hf, hc]

theorem edit_replace_not_found_witness :
    edit_file ⟨[("a.txt", "abc")], []⟩ "a.txt" (some "zzz") "q" =
      ("Text not found in file: zzz", ⟨[("a.txt", "abc")], []⟩) :=
  edit_replace_not_found ⟨[("a.txt", "abc")], []⟩ "a.txt" "abc" "zzz" "q" rfl
    (by decide) rfl

/-- C7, counterexample: on a directory holding only the file `a.txt` and the
subdirectory `b`, `list_files "."` does not return the claimed string with the
directory entry first: entries are sorted by name only, and `a.txt` sorts
before `b`. -/
theorem list_files_example_cex :
    list_files ⟨[("./a.txt", "x")], [".", "./b"]⟩ "." ≠
      "Contents of .:\n[DIR]  b/\n[FILE] a.txt" := by
  decide

/-- C7, amended: on a directory holding only the file `a.txt` (any content)
and the subdirectory `b`, `list_files "."` returns
`Contents of .:` then `[FILE] a.txt` then `[DIR]  b/`: entries sorted
lexicographically by name regardless of kind, directories tagged `[DIR]` with
a trailing slash, non-directories tagged `[FILE]`. -/
theorem list_files_example (c : String) :
    list_files ⟨[("./a.txt", c)], [".", "./b"]⟩ "." =
      "Contents of .:\n[FILE] a.txt\n[DIR]  b/" := rfl

/-- C8: `_execute_tool` with a name outside `read_file`, `list_files`,
`edit_file` returns exactly `Unknown tool: <name>` for every argument mapping,
leaves the filesystem unchanged, and (being a returned string, not a raised
exception) never escapes the executor boundary. -/
theorem execute_tool_unknown (name : String)
    (args : List (String × Option String)) (fs : FS)
    (h1 : name ≠ "read_file") (h2 : name ≠ "list_files")
    (h3 : name ≠ "edit_file") :
    execute_tool name args fs = ("Unknown tool: " ++ name, fs) := by
  simp [execute_tool, h1, h2, h3]

theorem execute_tool_unknown_witness :
    execute_tool "foo" [] ⟨[], []⟩ = ("Unknown tool: foo", ⟨[], []⟩) :=
  execute_tool_unknown "foo" [] ⟨[], []⟩ (by decide) (by decide) (by decide)

/-- C9: a `list_files` invocation whose `path` argument value is absent
(JSON null) or the empty string behaves exactly as `list_files "."`: the
listing is produced for the current directory. -/
theorem execute_list_files_default (fs : FS) (v : Option String)
    (h : v = none ∨ v = some "") :
    execute_tool "list_files" [("path", v)] fs = (list_files fs ".", fs) := by
  rcases h with h | h <;> subst h <;> rfl

theorem execute_list_files_default_witness :
    execute_tool "list_files" [("path", none)] ⟨[("./a.txt", "x")], ["."]⟩ =
      (list_files ⟨[("./a.txt", "x")], ["."]⟩ ".", ⟨[("./a.txt", "x")], ["."]⟩) :=
  execute_list_files_default ⟨[("./a.txt", "x")], ["."]⟩ none (Or.inl rfl)

/-- C10: reading an existing file with content `C` always returns the header
line `File contents of <p>:` followed by `C`, never the bare content. -/
theorem read_file_header (fs : FS) (p C : String)
    (h : fs.files.lookup p = some C) :
    read_file fs p = "File contents of " ++ p ++ ":\n" ++ C := by
  simp [read_file, h]

theorem read_file_header_witness :
    read_file ⟨[("a.txt", "hi")], []⟩ "a.txt" = "File contents of a.txt:\nhi" :=
  read_file_header ⟨[("a.txt", "hi")], []⟩ "a.txt" "hi" rfl

/-- Loop invariant: the conversation the loop started from is a prefix of the
final conversation, every request snapshot extends the starting conversation
and is a prefix of the final one, and consecutive request snapshots extend
one another. -/
theorem runLoop_requests_invariant (script : List (Except String Response)) :
    ∀ (fs : FS) (input : List Turn),
      input <+: (runLoop fs input script).input ∧
      (∀ q ∈ (runLoop fs input script).requests,
        input <+: q ∧ q <+: (runLoop fs input script).input) ∧
      List.Chain' (fun a b => a <+: b) (runLoop fs input script).requests := by
  induction script with
  | nil =>
    intro fs input
    simp [runLoop]
  | cons head rest ih =>
    intro fs input
    cases head with
    | error e =>
      simp [runLoop]
    | ok resp =>
      by_cases hfc : (resp.output.filterMap OutputItem.asFunctionCall).isEmpty = true
      · simp [runLoop, hfc, List.prefix_append]
      · rcases hB : execBatch fs (resp.output.filterMap OutputItem.asFunctionCall) with
          v | v
        · obtain ⟨msg, fs2, k⟩ := v
          simp [runLoop, hfc, hB, List.prefix_append]
        · obtain ⟨results, fs2, k⟩ := v
          obtain ⟨h1, h2, h3⟩ :=
            ih fs2 ((input ++ resp.output.map Turn.outputItem) ++ results)
          have hpre : input <+: (input ++ resp.output.map Turn.outputItem) ++ results :=
            (List.prefix_append _ _).trans (List.prefix_append _ _)
          simp only [runLoop, hfc, hB, if_false, Bool.false_eq_true]
          refine ⟨hpre.trans h1, ?_, ?_⟩
          · intro q hq
            rcases List.mem_cons.mp hq with hq | hq
            · subst hq
              exact ⟨List.prefix_rfl, hpre.trans h1⟩
            · exact ⟨hpre.trans (h2 q hq).1, (h2 q hq).2⟩
          · rw [List.chain'_cons']
            exact ⟨fun y hy => hpre.trans (h2 y (List.mem_of_mem_head? hy)).1, h3⟩

/-- C2: the conversation state is append-only throughout `chat`: the
conversation after appending the user turn is a prefix of the final
conversation (no turn is removed, replaced or reordered), the turn list sent
to the model on each request extends the one sent on the previous request by
newly appended turns only, and every request's turn list is a prefix of the
final conversation. -/
theorem chat_append_only (input0 : List Turn) (u : String)
    (script : List (Except String Response)) (fs : FS) :
    (input0 ++ [Turn.user u]) <+: (chat input0 u script fs).input ∧
    List.Chain' (fun a b => a <+: b) (chat input0 u script fs).requests ∧
    ∀ q ∈ (chat input0 u script fs).requests, q <+: (chat input0 u script fs).input := by
  obtain ⟨h1, h2, h3⟩ := runLoop_requests_invariant script fs (input0 ++ [Turn.user u])
  exact ⟨h1, h3, fun q hq => (h2 q hq).2⟩

end Agent
